import Mathlib

/-!
# VCP-trader: verification of the strategy / simulation core

Shallow embedding of the strategy-and-simulation core of the VCP-trader
repository, and proofs checking the natural-language specification against it.

Python `float` arithmetic is modelled by `ℚ` (exact rational arithmetic);
Python `int` by `ℤ` (with `pyInt` for `int(...)` truncation and `pyRound`
for `round(...)`'s round-half-to-even).  Pandas `NaN` cells are modelled by
`Option ℚ` with `none` for `NaN`.  Dates are modelled by natural-number
ordinals (a `PriceSeries` is strictly ascending by date).
-/

namespace VCPTrader

/-- Python `int(q)` on a float: truncation toward zero. -/
def pyInt (q : ℚ) : ℤ := if 0 ≤ q then ⌊q⌋ else ⌈q⌉

/-- Python `round(q)` on a float: round half to even (banker's rounding). -/
def pyRound (q : ℚ) : ℤ :=
  if q - ⌊q⌋ < 1/2 then ⌊q⌋
  else if (1:ℚ)/2 < q - ⌊q⌋ then ⌊q⌋ + 1
  else if ⌊q⌋ % 2 = 0 then ⌊q⌋ else ⌊q⌋ + 1

/-- `numpy.mean` over a list of floats (`sum / len`; Lean's `x / 0 = 0`
stands in for numpy's `NaN` on an empty list, which no caller hits). -/
def listMean (l : List ℚ) : ℚ := l.sum / (l.length : ℚ)

/-- `pandas.Series.max` over a non-empty column. -/
def listMax : List ℚ → ℚ
  | [] => 0
  | a :: t => t.foldl max a

/-- `pandas.Series.min` over a non-empty column. -/
def listMin : List ℚ → ℚ
  | [] => 0
  | a :: t => t.foldl min a

/-! ## Trailing-stop engine (`src/trading/stop_loss.py`, `StopLossManager`)

The configuration surface comes from `src/core/config.py` (`Settings`):
`initial_stop_loss = 7.0` and
`trailing_stop_levels = [{5.0, 5.0}, {10.0, 8.0}, {20.0, 10.0}, {50.0, 15.0}]`
(each entry `{profit_threshold, trail_percent}`). -/

inductive StopType where
  | initial
  | trailing
  deriving DecidableEq, Repr

/-- `StopLossLevel` (stop_loss.py line 28). -/
structure StopLossLevel where
  level : ℕ
  stop_type : StopType
  profit_threshold : ℚ
  trail_percent : ℚ
  deriving DecidableEq, Repr

/-- `StopLossManager.__init__` configuration. -/
structure StopLossManager where
  initial_stop_pct : ℚ
  trailing_levels : List (ℚ × ℚ)   -- (profit_threshold, trail_percent)
  use_breakeven : Bool
  breakeven_profit_threshold : ℚ
  deriving DecidableEq, Repr

/-- `StopLossManager()` with the `Settings` defaults. -/
def defaultStopManager : StopLossManager :=
  { initial_stop_pct := 7
    trailing_levels := [(5, 5), (10, 8), (20, 10), (50, 15)]
    use_breakeven := true
    breakeven_profit_threshold := 10 }

/-- `StopLossManager._build_levels`: level 0 is the initial stop
(always active, threshold −100), then the trailing levels in order. -/
def buildLevels (m : StopLossManager) : List StopLossLevel :=
  ⟨0, .initial, -100, m.initial_stop_pct⟩ ::
    (m.trailing_levels.enum.map fun ic =>
      ⟨ic.1 + 1, .trailing, ic.2.1, ic.2.2⟩)

/-- `self.levels[current_level] if current_level < len(self.levels) else self.levels[-1]`
(stop_loss.py line 194). -/
def levelAt (m : StopLossManager) (i : ℕ) : StopLossLevel :=
  match (buildLevels m).get? i with
  | some l => l
  | none => (buildLevels m).getLast (by simp [buildLevels])

/-- `StopLossManager.get_current_level`: the last configured level whose
profit threshold is met by the running high. -/
def getCurrentLevel (m : StopLossManager) (entry highest : ℚ) : ℕ :=
  let profit := (highest - entry) / entry * 100
  (buildLevels m).foldl (fun acc l => if l.profit_threshold ≤ profit then l.level else acc) 0

/-- `StopLossManager.calculate_stop_price` (with the level passed explicitly,
as every caller in the repository does): entry-based stop for the initial
level, running-high-based stop for trailing levels, floored at
`entry × 1.001` once the breakeven threshold has been reached. -/
def calculateStopPrice (m : StopLossManager) (entry highest : ℚ) (level : ℕ) : ℚ :=
  let li := levelAt m level
  let stop := match li.stop_type with
    | .initial => entry * (1 - li.trail_percent / 100)
    | .trailing => highest * (1 - li.trail_percent / 100)
  if m.use_breakeven then
    if m.breakeven_profit_threshold ≤ (highest - entry) / entry * 100 then
      max stop (entry * (1001/1000))
    else stop
  else stop

inductive ExitReason where
  | stopLoss      -- "손절 (Level …)"   : profit < 0
  | trailingStop  -- "트레일링 스탑 (Level …)" : profit ≥ 0
  deriving DecidableEq, Repr

/-- `TrailingStopResult` (stop_loss.py line 47; the `symbol`/"next level"
informational fields are omitted). -/
structure TrailingStopResult where
  entry_price : ℚ
  current_price : ℚ
  highest_price : ℚ
  profit_pct : ℚ
  profit_from_high : ℚ
  current_level : ℕ
  stop_price : ℚ
  stop_distance_pct : ℚ
  should_exit : Bool
  exit_reason : Option ExitReason
  deriving DecidableEq, Repr

/-- `StopLossManager.calculate_stop` (stop_loss.py lines 212–301): update the
running high, raise the level monotonically, and return
`max(stop at new level, stop at previous level)` when a previous trailing
level was persisted. -/
def calculateStop (m : StopLossManager) (entry current highest₀ : ℚ)
    (currentLevel : ℕ) : TrailingStopResult :=
  let highest := max highest₀ current
  let newLevel := getCurrentLevel m entry highest
  let actualLevel := max currentLevel newLevel
  let stop₀ := calculateStopPrice m entry highest actualLevel
  let stop :=
    if 0 < currentLevel then max stop₀ (calculateStopPrice m entry highest currentLevel)
    else stop₀
  let profit := (current - entry) / entry * 100
  let profitFromHigh := (current - highest) / highest * 100
  { entry_price := entry
    current_price := current
    highest_price := highest
    profit_pct := profit
    profit_from_high := profitFromHigh
    current_level := actualLevel
    stop_price := stop
    stop_distance_pct := (current - stop) / current * 100
    should_exit := decide (current ≤ stop)
    exit_reason :=
      if current ≤ stop then some (if profit < 0 then .stopLoss else .trailingStop)
      else none }

/-- `StopLossManager.simulate_trailing` inner loop: the caller persists
`highest_price` and `current_level` from one call to the next and stops at
the first exit signal. -/
def simulateTrailingAux (m : StopLossManager) (entry : ℚ) :
    List ℚ → ℚ → ℕ → List TrailingStopResult
  | [], _, _ => []
  | p :: ps, highest, level =>
    let r := calculateStop m entry p highest level
    r :: (if r.should_exit then []
          else simulateTrailingAux m entry ps r.highest_price r.current_level)

/-- `StopLossManager.simulate_trailing` (stop_loss.py lines 313–350):
state starts at `highest_price = entry_price`, `current_level = 0`. -/
def simulateTrailing (m : StopLossManager) (entry : ℚ)
    (prices : List ℚ) : List TrailingStopResult :=
  simulateTrailingAux m entry prices entry 0

/-! ## Position sizer (`src/trading/risk_manager.py`, `RiskManager`)

`calculate_position_size` applies its constraints sequentially, threading an
integer size and an optional "limited by" label.  The Korean label strings of
the source are modelled by the constructors of `SizeLimit`. -/

inductive SizeLimit where
  | countCap            -- "최대 포지션 수 초과 …"
  | singleCap           -- "단일 포지션 비중 제한 …"
  | exposureExhausted   -- "총 투자 비율 초과 …"
  | exposureCap         -- "총 투자 비율 제한 …"
  | sectorExhausted     -- "섹터 집중도 초과 …"
  | sectorCap           -- "섹터 집중도 제한 …"
  | minNotional         -- "최소 포지션 금액 미달 …"
  deriving DecidableEq, Repr

/-- `RiskManager.__init__` configuration, after the constructor's `/100`
conversions have been applied to the percentage arguments. -/
structure RiskManager where
  max_risk_per_trade : ℚ
  max_positions : ℕ
  max_sector_concentration : ℚ
  max_single_position_pct : ℚ
  max_portfolio_exposure : ℚ
  min_position_value : ℚ
  deriving DecidableEq, Repr

/-- `RiskManager()` with the `Settings` defaults:
`max_risk_per_trade=2.0%`, `max_positions=8`, `max_sector_concentration=30%`,
`max_single_position_pct=15%`, `max_portfolio_exposure=100%`,
`min_position_value=1_000_000`. -/
def defaultRiskManager : RiskManager :=
  { max_risk_per_trade := 2/100
    max_positions := 8
    max_sector_concentration := 30/100
    max_single_position_pct := 15/100
    max_portfolio_exposure := 1
    min_position_value := 1000000 }

/-- `PositionSizeResult` (risk_manager.py line 16; the informational
percentage fields are carried too). -/
structure PositionSizeResult where
  account_value : ℚ
  entry_price : ℚ
  stop_price : ℚ
  risk_amount : ℚ
  risk_per_share : ℚ
  risk_percent : ℚ
  position_size : ℤ
  position_value : ℚ
  position_percent : ℚ
  size_limited_by : Option SizeLimit
  original_size : ℤ
  deriving DecidableEq, Repr

/-- Constraint block 1 of `calculate_position_size`
("제약 조건 1: 최대 포지션 수", risk_manager.py lines 171–174): at the
position-count cap the size is zeroed and the label set. -/
def sizeAfterCount (rm : RiskManager) (currentPositions : ℕ) (size0 : ℤ) :
    ℤ × Option SizeLimit :=
  if rm.max_positions ≤ currentPositions then (0, some .countCap) else (size0, none)

/-- Constraint block 2 ("제약 조건 2: 단일 포지션 최대 비중", lines 176–181):
shrink to the single-position value cap, recording the label only when none
was recorded yet. -/
def sizeAfterSingle (rm : RiskManager) (account entry : ℚ)
    (s : ℤ × Option SizeLimit) : ℤ × Option SizeLimit :=
  let max_position_value := account * rm.max_single_position_pct
  if max_position_value < (s.1 : ℚ) * entry then
    (pyInt (max_position_value / entry), if s.2 = none then some .singleCap else s.2)
  else s

/-- Constraint block 3 ("제약 조건 3: 전체 노출 제한", lines 183–193):
exhausted exposure zeroes the size and *overwrites* the label; otherwise the
size is shrunk with the label recorded only when none was recorded yet. -/
def sizeAfterExposure (rm : RiskManager) (account entry currentExposure : ℚ)
    (s : ℤ × Option SizeLimit) : ℤ × Option SizeLimit :=
  let available_exposure := rm.max_portfolio_exposure - currentExposure
  if available_exposure ≤ 0 then (0, some .exposureExhausted)
  else
    let max_from_exposure := pyInt (account * available_exposure / entry)
    if max_from_exposure < s.1 then
      (max_from_exposure, if s.2 = none then some .exposureCap else s.2)
    else s

/-- Constraint block 4 ("제약 조건 4: 섹터 집중도 제한", lines 195–206): only
when a sector is given; an exhausted sector budget zeroes the size and
*overwrites* the label. -/
def sizeAfterSector (rm : RiskManager) (account entry : ℚ)
    (sector : Option String) (sectorExposure : ℚ)
    (s : ℤ × Option SizeLimit) : ℤ × Option SizeLimit :=
  match sector with
  | none => s
  | some _ =>
    let available_sector := rm.max_sector_concentration - sectorExposure
    if available_sector ≤ 0 then (0, some .sectorExhausted)
    else
      let max_from_sector := pyInt (account * available_sector / entry)
      if max_from_sector < s.1 then
        (max_from_sector, if s.2 = none then some .sectorCap else s.2)
      else s

/-- The minimum-notional check ("최소 포지션 금액 체크", lines 208–211): a
position value below the minimum zeroes the size and *overwrites* the
label. -/
def sizeAfterMin (rm : RiskManager) (entry : ℚ) (s : ℤ × Option SizeLimit) :
    ℤ × Option SizeLimit :=
  if (s.1 : ℚ) * entry < rm.min_position_value then (0, some .minNotional) else s

/-- `RiskManager.calculate_position_size` (risk_manager.py lines 128–240).
The source threads `(position_size, size_limited_by)` through the constraint
blocks above in their fixed order, then rounds down to the lot multiple
(Python `//` is floor division). -/
def calculatePositionSize (rm : RiskManager) (account entry stop : ℚ)
    (currentPositions : ℕ) (currentExposure : ℚ)
    (sector : Option String) (sectorExposure : ℚ) (lot_size : ℤ) :
    PositionSizeResult :=
  let risk_per_share := |entry - stop|
  let risk_percent := risk_per_share / entry
  let risk_amount := account * rm.max_risk_per_trade
  let size0 : ℤ := if 0 < risk_per_share then pyInt (risk_amount / risk_per_share) else 0
  let s5 :=
    sizeAfterMin rm entry
      (sizeAfterSector rm account entry sector sectorExposure
        (sizeAfterExposure rm account entry currentExposure
          (sizeAfterSingle rm account entry
            (sizeAfterCount rm currentPositions size0))))
  let position_size := (Int.fdiv s5.1 lot_size) * lot_size
  let position_value := (position_size : ℚ) * entry
  { account_value := account
    entry_price := entry
    stop_price := stop
    risk_amount := risk_amount
    risk_per_share := risk_per_share
    risk_percent := risk_percent * 100
    position_size := position_size
    position_value := position_value
    position_percent := (if 0 < account then position_value / account else 0) * 100
    size_limited_by := s5.2
    original_size := size0 }

/-! ## VCP detector (`src/patterns/vcp_detector.py`, `VCPDetector`)

`Contraction` keeps the numeric fields of the source dataclass (the
`datetime` fields, which no claim touches, are dropped). -/

structure Contraction where
  high_price : ℚ
  low_price : ℚ
  depth_pct : ℚ
  duration_days : ℕ
  avg_volume : ℚ
  volume_ratio : ℚ
  deriving DecidableEq, Repr

/-- `VCPDetector._analyze_volume` result (`{"dry_up": …, "avg_ratio": …}`). -/
structure VolumeAnalysis where
  dry_up : Bool
  avg_ratio : ℚ
  deriving DecidableEq, Repr

/-- `VCPDetector._analyze_volume` (vcp_detector.py lines 396–411).
Note the two "halves" both contain the middle ratio: the first half is
`volume_ratios[: n // 2 + 1]` and the second half is `volume_ratios[n // 2 :]`. -/
def analyzeVolume (declineThreshold : ℚ) (contractions : List Contraction) :
    VolumeAnalysis :=
  match contractions with
  | [] => ⟨false, 1⟩
  | _ =>
    let volume_ratios := contractions.map (·.volume_ratio)
    let avg_ratio := listMean volume_ratios
    if 2 ≤ contractions.length then
      let first_half_vol := listMean (volume_ratios.take (volume_ratios.length / 2 + 1))
      let second_half_vol := listMean (volume_ratios.drop (volume_ratios.length / 2))
      ⟨decide (second_half_vol < first_half_vol * declineThreshold), avg_ratio⟩
    else ⟨false, avg_ratio⟩

/-- The progressive-tightening loop of
`VCPDetector._validate_progressive_contractions` over the depth list:
every adjacent step must satisfy `depth[i] ≤ depth[i-1] * ratio`. -/
def progressiveOK (ratio : ℚ) : List ℚ → Bool
  | [] => true
  | [_] => true
  | a :: b :: t => decide (b ≤ a * ratio) && progressiveOK ratio (b :: t)

/-- `VCPDetector._validate_progressive_contractions` (lines 381–394):
fewer than two contractions fail outright. -/
def validateProgressiveContractions (ratio : ℚ) (cs : List Contraction) : Bool :=
  if cs.length < 2 then false
  else progressiveOK ratio (cs.map (·.depth_pct))

inductive Tightening where
  | excellent
  | good
  | fair
  | poor
  | none
  deriving DecidableEq, Repr

/-- `VCPDetector._evaluate_tightening` (lines 421–435): by the last
contraction's depth. -/
def evaluateTightening (cs : List Contraction) : Tightening :=
  match cs.getLast? with
  | .none => .none
  | some c =>
    if c.depth_pct ≤ 3 then .excellent
    else if c.depth_pct ≤ 5 then .good
    else if c.depth_pct ≤ 8 then .fair
    else .poor

/-- `VCPDetector._is_last_contraction_tight` (lines 437–441). -/
def isLastContractionTight (cs : List Contraction) : Bool :=
  match cs.getLast? with
  | .none => false
  | some c => decide (c.depth_pct ≤ 5)

/-- `VCPDetector._calculate_score` (lines 443–491), capped at 100. -/
def calculateVCPScore (cs : List Contraction) (patternDepth : ℚ)
    (volumeDryUp : Bool) (tq : Tightening) (lastTight : Bool) : ℕ :=
  let s1 : ℕ :=
    if 4 ≤ cs.length then 25
    else if 3 ≤ cs.length then 20
    else if 2 ≤ cs.length then 15
    else 0
  let s2 : ℕ :=
    if 15 ≤ patternDepth ∧ patternDepth ≤ 25 then 20
    else if 10 ≤ patternDepth ∧ patternDepth ≤ 30 then 15
    else if patternDepth ≤ 35 then 10
    else 0
  let s3 : ℕ :=
    match tq with
    | .excellent => 25
    | .good => 20
    | .fair => 15
    | .poor => 5
    | .none => 0
  let s4 : ℕ := if volumeDryUp then 15 else 0
  let s5 : ℕ :=
    if lastTight then 15
    else match cs.getLast? with
      | some c => if c.depth_pct ≤ 8 then 10 else 0
      | .none => 0
  min (s1 + s2 + s3 + s4 + s5) 100

/-- `VCPDetector._calculate_pivot` (lines 413–419): the last contraction's
high, falling back to the window's last bar high when there are none. -/
def calculatePivot (cs : List Contraction) (lastBarHigh : ℚ) : ℚ :=
  match cs.getLast? with
  | .none => lastBarHigh
  | some c => c.high_price

/-- The outcome fields of `VCPPattern` that the claims touch. -/
structure VCPOutcome where
  detected : Bool
  score : ℕ
  pivot_price : ℚ := 0
  base_low : ℚ := 0
  pattern_depth_pct : ℚ := 0
  num_contractions : ℕ := 0
  volume_dry_up : Bool := false
  tightening_quality : Tightening := .none
  deriving DecidableEq, Repr

/-- `VCPDetector` configuration (constructor defaults with
`min_contractions` from `Settings`, i.e. 2). -/
structure VCPConfig where
  min_contractions : ℕ := 2
  contraction_ratio : ℚ := 7/10
  max_pattern_depth : ℚ := 35
  min_pattern_depth : ℚ := 10
  volume_decline_threshold : ℚ := 7/10
  min_vcp_score : ℕ := 70       -- settings.min_vcp_score
  deriving DecidableEq, Repr

/-- `VCPDetector()` with the constructor/Settings defaults. -/
def defaultVCPConfig : VCPConfig := {}

/-- `VCPDetector.detect` from the contraction list on (vcp_detector.py
lines 179–268): the stages before it (`_find_base`, `_find_contractions`)
only produce `contractions`, the base high/low and the window's last bar
high, which are taken as inputs here.  Every rejection path returns a
structured result; the progressive-tightening failure returns the fixed
score 15. -/
def vcpEvaluate (cfg : VCPConfig) (contractions : List Contraction)
    (baseHigh baseLow lastBarHigh : ℚ) : VCPOutcome :=
  if contractions.length < cfg.min_contractions then
    { detected := false, score := 0, num_contractions := contractions.length }
  else if ¬ validateProgressiveContractions cfg.contraction_ratio contractions then
    { detected := false, score := 15, num_contractions := contractions.length }
  else
    let volume := analyzeVolume cfg.volume_decline_threshold contractions
    let pivot_price := calculatePivot contractions lastBarHigh
    let pattern_depth := (baseHigh - baseLow) / baseHigh * 100
    if cfg.max_pattern_depth < pattern_depth then
      { detected := false, score := 25, pivot_price := pivot_price,
        base_low := baseLow, pattern_depth_pct := pattern_depth,
        num_contractions := contractions.length }
    else if pattern_depth < cfg.min_pattern_depth then
      { detected := false, score := 20, pivot_price := pivot_price,
        base_low := baseLow, pattern_depth_pct := pattern_depth,
        num_contractions := contractions.length }
    else
      let tq := evaluateTightening contractions
      let lastTight := isLastContractionTight contractions
      let score := calculateVCPScore contractions pattern_depth volume.dry_up tq lastTight
      { detected := decide (cfg.min_vcp_score ≤ score)
        score := score
        pivot_price := pivot_price
        base_low := baseLow
        pattern_depth_pct := pattern_depth
        num_contractions := contractions.length
        volume_dry_up := volume.dry_up
        tightening_quality := tq }

/-! ## RS calculator (`src/patterns/rs_calculator.py`, `RSCalculator`)

`calculate_ratings` turns each symbol's raw RS into a percentile over the
universe with a strict `<` comparator and Python `round`. -/

/-- The percentile/rating computation of `RSCalculator.calculate_ratings`
(rs_calculator.py lines 166–186) for one raw score against the universe of
raw scores: `percentile = (raw_rs_array < raw_rs).sum() / len * 100`,
`rs_rating = int(round(percentile))`. -/
def rsRating (univ : List ℚ) (raw : ℚ) : ℤ :=
  pyRound ((univ.countP (fun u => decide (u < raw)) : ℚ) / (univ.length : ℚ) * 100)

/-- `RSCalculator.calculate_ratings` over a universe of raw scores: each
symbol's rating against the whole universe. -/
def calculateRatings (univ : List ℚ) : List (ℚ × ℤ) :=
  univ.map fun r => (r, rsRating univ r)

/-! ## Trend template (`src/patterns/trend_template.py`, `TrendTemplate`)

`analyze` receives a `PriceSeries` (strictly ascending by date), sorts it
descending (modelled by `List.reverse`), computes the three SMAs with
pandas `rolling(window).mean()` — whose value at positional row `i` is the
mean of rows `i−window+1 … i` and `NaN` (`Option.none`) when fewer than
`window` rows precede — and evaluates the eight criteria. -/

structure PriceBar where
  date : ℕ           -- date ordinal; a PriceSeries is strictly ascending
  open_price : ℚ     -- "open" (a Lean keyword)
  high : ℚ
  low : ℚ
  close : ℚ
  volume : ℚ
  deriving DecidableEq, Repr

/-- `pandas.Series.rolling(window).mean()` at positional row `i`
(default `min_periods`): `NaN` unless `window` rows are available. -/
def rollingMeanAt (values : List ℚ) (window i : ℕ) : Option ℚ :=
  if i + 1 < window then none
  else some (listMean ((values.drop (i + 1 - window)).take window))

/-- `x > 0` on a possibly-`NaN` float (`NaN > 0` is `False` in Python). -/
def optPos : Option ℚ → Bool
  | some v => decide (0 < v)
  | none => false

/-- `TrendTemplateResult` (trend_template.py line 18; metric fields that no
claim touches are omitted). -/
structure TrendTemplateResult where
  passes : Bool
  score : ℕ
  rs_rating : Option ℤ
  price_above_150ma : Bool := false
  price_above_50ma : Bool := false
  ma_alignment : Bool := false
  ma200_rising : Bool := false
  above_52w_low : Bool := false
  within_52w_high : Bool := false
  rs_above_threshold : Bool := false
  above_base : Bool := false
  deriving DecidableEq, Repr

/-- The aggregation step of `TrendTemplate.analyze` (lines 204–216):
`score = sum(criteria)`, `passes = all(criteria)` over the eight booleans. -/
def mkTrendResult (rs : Option ℤ) (c1 c2 c3 c4 c5 c6 c7 c8 : Bool) :
    TrendTemplateResult :=
  let criteria := [c1, c2, c3, c4, c5, c6, c7, c8]
  { passes := criteria.all id
    score := criteria.count true
    rs_rating := rs
    price_above_150ma := c1
    price_above_50ma := c2
    ma_alignment := c3
    ma200_rising := c4
    above_52w_low := c5
    within_52w_high := c6
    rs_above_threshold := c7
    above_base := c8 }

/-- `TrendTemplate.analyze` (trend_template.py lines 124–246) with the
constructor defaults (`min_rs_rating = 70`, `price_above_52w_low_pct = 30`,
`price_within_52w_high_pct = 25`, `ma200_lookback_days = 30`).  The input is
a `PriceSeries` ascending by date; the source's descending sort is its
reverse.  `current` is the descending frame's row 0, where each
`rolling(window).mean()` value is `NaN` (no preceding rows), so after the
`pd.notna` coercion the three SMAs are 0 and criteria 1–4 are `False`; the
30-rows-ago SMA200 is likewise `NaN` and fails its `> 0` guard. -/
def trendAnalyze (series : List PriceBar) (rs_rating : Option ℤ) :
    TrendTemplateResult :=
  if series.length < 250 then
    { passes := false, score := 0, rs_rating := rs_rating }
  else
    let desc := series.reverse
    let closes := desc.map (·.close)
    let current_price := (closes.headD 0)
    let sma_50 := (rollingMeanAt closes 50 0).getD 0
    let sma_150 := (rollingMeanAt closes 150 0).getD 0
    let sma_200 := (rollingMeanAt closes 200 0).getD 0
    let week_52_high := listMax ((desc.take 252).map (·.high))
    let week_52_low := listMin ((desc.take 252).map (·.low))
    let pct_from_52w_high := (current_price - week_52_high) / week_52_high * 100
    let pct_from_52w_low := (current_price - week_52_low) / week_52_low * 100
    let ma200_30d_ago : Option ℚ :=
      if 30 < series.length then rollingMeanAt closes 200 30 else some 0
    let recent_base := listMin ((desc.take 50).map (·.low))
    let c1 := if 0 < sma_150 ∧ 0 < sma_200 then
        decide (sma_150 < current_price ∧ sma_200 < sma_150) else false
    let c2 := if 0 < sma_50 then decide (sma_50 < current_price) else false
    let c3 := if 0 < sma_50 ∧ 0 < sma_150 ∧ 0 < sma_200 then
        decide (sma_150 < sma_50 ∧ sma_200 < sma_150) else false
    let c4 := if 0 < sma_200 ∧ optPos ma200_30d_ago then
        decide (ma200_30d_ago.getD 0 < sma_200) else false
    let c5 := decide ((30:ℚ) ≤ pct_from_52w_low)
    let c6 := decide (|pct_from_52w_high| ≤ 25)
    let c7 := match rs_rating with
      | some r => decide ((70:ℤ) ≤ r)
      | none => false
    let c8 := decide (recent_base < current_price)
    mkTrendResult rs_rating c1 c2 c3 c4 c5 c6 c7 c8

/-! ## Backtest engine (`src/backtesting/backtest_engine.py`, `BacktestEngine`)

The day loop of `run` (lines 203–241): per business day, (1) update open
positions and close stop breaches, (2) when below `max_positions`, enter the
top-ranked signals, (3) snapshot.  Market data (`HistoricalDataManager`) is
external: each day's bars are supplied as an association list from symbol to
that day's bar, and the day's ranked signal list (the output of
`_scan_for_signals`, which queries the external data manager) is supplied as
an oracle list, so every theorem quantifies over all possible scan results.
Snapshots touch no claim and are omitted. -/

/-- One day's bar for one symbol (the fields `_update_positions` reads). -/
structure Bar where
  close : ℚ
  low : ℚ
  deriving DecidableEq, Repr

/-- An entry signal as built by `_scan_for_signals` (line 313). -/
structure Signal where
  symbol : ℕ
  price : ℚ        -- data["close"].iloc[-1]
  stop_loss : ℚ    -- vcp_result.stop_loss_price
  deriving DecidableEq, Repr

/-- An open `Position` (backtest_engine.py line 68, flattened with the entry
fields of its `Trade`). -/
structure BTPosition where
  entry_price : ℚ
  shares : ℤ
  current_price : ℚ
  highest_price : ℚ
  stop_loss : ℚ
  deriving DecidableEq, Repr

inductive BTExitReason where
  | stopLossExit   -- "스탑로스"
  | backtestEnd    -- "백테스트 종료"
  deriving DecidableEq, Repr

/-- A completed `Trade` (exit fields set by `_close_position`). -/
structure BTrade where
  symbol : ℕ
  shares : ℤ
  exit_price : ℚ
  reason : BTExitReason
  deriving DecidableEq, Repr

/-- The engine state mutated by the day loop. -/
structure BTState where
  cash : ℚ
  positions : List (ℕ × BTPosition)
  trades : List BTrade
  deriving DecidableEq, Repr

/-- `BacktestEngine.__init__` parameters used by the day loop. -/
structure BTConfig where
  max_positions : ℕ := 10
  risk_per_trade : ℚ := 1/100
  commission_rate : ℚ := 3/20000
  slippage_rate : ℚ := 1/1000
  deriving DecidableEq, Repr

/-- The engine's `RiskManager(max_risk_per_trade=risk_per_trade,
max_positions=max_positions)`: the constructor divides the passed
`max_risk_per_trade` by 100 (falling back to the `Settings` default 2.0 when
the argument is falsy, i.e. zero); all other limits keep their defaults. -/
def engineRiskManager (cfg : BTConfig) : RiskManager :=
  { defaultRiskManager with
    max_risk_per_trade := (if cfg.risk_per_trade = 0 then 2 else cfg.risk_per_trade) / 100
    max_positions := cfg.max_positions }

/-- Python dict lookup over the association-list model. -/
def lookupKey (l : List (ℕ × BTPosition)) (c : ℕ) : Option BTPosition :=
  (l.find? fun p => p.1 = c).map (·.2)

/-- `del self.positions[code]`. -/
def removeKey (l : List (ℕ × BTPosition)) (c : ℕ) : List (ℕ × BTPosition) :=
  l.filter fun p => ¬ p.1 = c

/-- `self.positions[code] = position` (dict assignment replaces). -/
def insertKey (l : List (ℕ × BTPosition)) (c : ℕ) (p : BTPosition) :
    List (ℕ × BTPosition) :=
  (c, p) :: removeKey l c

/-- Modelled from the spec: `StopLossManager.update_stop`.
`BacktestEngine._update_positions` (line 410) calls
`self.stop_loss_manager.update_stop(entry_price=…, current_price=…,
highest_price=…, current_stop=…)`, but `StopLossManager`
(src/src/trading/stop_loss.py) defines no such method — only
`calculate_stop`.  Spec §4.6 step 1 says the stop is recomputed via the
TrailingStopEngine from the updated running high, and §4.5 says the engine
is stateless with the level determined by the running high's profit; so the
missing method is modelled as `calculate_stop` at the level the running
high activates.  The passed `current_stop` is unused by the stateless
engine. -/
def update_stop (m : StopLossManager) (entry current highest currentStop : ℚ) :
    TrailingStopResult :=
  calculateStop m entry current highest (getCurrentLevel m entry highest)

/-- `BacktestEngine._close_position` (lines 426–455): exit slippage and
commission, then credit net proceeds, finalize the trade and drop the
position.  A missing code is a no-op. -/
def closePosition (cfg : BTConfig) (code : ℕ) (exitPrice : ℚ)
    (reason : BTExitReason) (st : BTState) : BTState :=
  match lookupKey st.positions code with
  | none => st
  | some p =>
    let actual_exit := exitPrice * (1 - cfg.slippage_rate)
    let proceeds := actual_exit * (p.shares : ℚ)
    let commission := proceeds * cfg.commission_rate
    let net_proceeds := proceeds - commission
    { cash := st.cash + net_proceeds
      positions := removeKey st.positions code
      trades := st.trades ++ [⟨code, p.shares, actual_exit, reason⟩] }

/-- The per-position body of `_update_positions` (lines 391–420): with the
day's bar, update `current_price`/`highest_price`, recompute the stop, and
flag the stop price for exit when the day's low breaches it; without a bar
the position is skipped. -/
def maintainPosition (bars : List (ℕ × Bar)) (cp : ℕ × BTPosition) :
    (ℕ × BTPosition) × Option ℚ :=
  match ((bars.find? fun b => b.1 = cp.1).map (·.2)) with
  | none => (cp, none)
  | some b =>
    let current_price := b.close
    let highest := if cp.2.highest_price < current_price then current_price
                   else cp.2.highest_price
    let new_stop := update_stop defaultStopManager cp.2.entry_price current_price
      highest cp.2.stop_loss
    let p' : BTPosition :=
      { cp.2 with current_price := current_price, highest_price := highest,
                  stop_loss := new_stop.stop_price }
    ((cp.1, p'), if b.low ≤ p'.stop_loss then some p'.stop_loss else none)

/-- `BacktestEngine._update_positions` (lines 387–424): update every open
position in place, then close the flagged ones at their stop prices with
reason "스탑로스". -/
def updatePositions (cfg : BTConfig) (bars : List (ℕ × Bar)) (st : BTState) :
    BTState :=
  let stepped := st.positions.map (maintainPosition bars)
  let to_close := stepped.filterMap fun sp => sp.2.map fun ex => (sp.1.1, ex)
  let st1 : BTState := { st with positions := stepped.map (·.1) }
  to_close.foldl (fun s ce => closePosition cfg ce.1 ce.2 .stopLossExit s) st1

/-- `BacktestEngine._calculate_portfolio_value` (lines 464–470). -/
def portfolioValue (st : BTState) : ℚ :=
  st.cash + (st.positions.map fun cp => cp.2.current_price * (cp.2.shares : ℚ)).sum

/-- `BacktestEngine._execute_entry` (lines 331–385): slippage-adjusted entry,
risk-based sizing, affordability shrink to 95% of cash, then open the
position and deduct cost plus commission.  The source reads
`position_size.recommended_shares`; `PositionSizeResult`
(src/src/trading/risk_manager.py) has no such attribute — its computed share
count is `position_size` — so, modelled from the spec (§4.6 step 3 "size via
PositionSizer"), the sizing result's share count is used. -/
def executeEntry (cfg : BTConfig) (sig : Signal) (st : BTState) : BTState :=
  let entry_price := sig.price * (1 + cfg.slippage_rate)
  let sizing := calculatePositionSize (engineRiskManager cfg) (portfolioValue st)
    entry_price sig.stop_loss st.positions.length 0 none 0 1
  let shares := sizing.position_size
  if shares ≤ 0 then st
  else
    let cost := entry_price * (shares : ℚ)
    let commission := cost * cfg.commission_rate
    let total_cost := cost + commission
    let go : ℤ → BTState := fun sh =>
      let cost := entry_price * (sh : ℚ)
      let commission := cost * cfg.commission_rate
      let total_cost := cost + commission
      { cash := st.cash - total_cost
        positions := insertKey st.positions sig.symbol
          { entry_price := entry_price, shares := sh, current_price := entry_price,
            highest_price := entry_price, stop_loss := sig.stop_loss }
        trades := st.trades }
    if st.cash < total_cost then
      let shares' := pyInt (st.cash * (95/100) / entry_price)
      if shares' ≤ 0 then st else go shares'
    else go shares

/-- One simulated day of `BacktestEngine.run` (lines 203–241): maintenance
first, then — only when below the position cap — entry of the top
`max_positions − len(positions)` ranked signals (the slice is taken before
the entry loop; each entry re-reads the portfolio value and position count,
as the source does). -/
def dayStep (cfg : BTConfig) (day : List (ℕ × Bar) × List Signal)
    (st : BTState) : BTState :=
  let st1 := updatePositions cfg day.1 st
  if st1.positions.length < cfg.max_positions then
    (day.2.take (cfg.max_positions - st1.positions.length)).foldl
      (fun s sig => executeEntry cfg sig s) st1
  else st1

/-- The initial engine state (`cash = initial_capital`, nothing open). -/
def initialState (initialCapital : ℚ) : BTState :=
  { cash := initialCapital, positions := [], trades := [] }

/-- The day loop of `BacktestEngine.run` over the supplied day inputs. -/
def runBacktest (cfg : BTConfig) (initialCapital : ℚ)
    (days : List (List (ℕ × Bar) × List Signal)) : BTState :=
  days.foldl (fun st day => dayStep cfg day st) (initialState initialCapital)

/-- `BacktestEngine._close_all_positions` (lines 457–462): force-close every
open position at its last known price. -/
def closeAllPositions (cfg : BTConfig) (st : BTState) : BTState :=
  (st.positions.map (·.1)).foldl
    (fun s code =>
      match lookupKey s.positions code with
      | some p => closePosition cfg code p.current_price .backtestEnd s
      | none => s)
    st

/-! ### Well-formedness predicates for the simulation inputs -/

/-- Friction rates under which the engine's 95%-of-cash shrink cannot
overdraw: non-negative commission of at most 5% (the engine default is
0.015%) and a slippage rate in `[0, 1]` (default 0.1%). -/
def RatesOK (cfg : BTConfig) : Prop :=
  0 ≤ cfg.commission_rate ∧ cfg.commission_rate ≤ 1/20
    ∧ 0 ≤ cfg.slippage_rate ∧ cfg.slippage_rate ≤ 1

/-- Every bar of the day carries a non-negative close. -/
def BarsOK (bars : List (ℕ × Bar)) : Prop := ∀ cb ∈ bars, 0 ≤ cb.2.close

/-- Every scan signal carries a non-negative price and stop. -/
def SignalsOK (sigs : List Signal) : Prop :=
  ∀ s ∈ sigs, 0 ≤ s.price ∧ 0 ≤ s.stop_loss

/-- A well-formed day input. -/
def DayOK (day : List (ℕ × Bar) × List Signal) : Prop :=
  BarsOK day.1 ∧ SignalsOK day.2

/-- One open position's numeric sanity: non-negative share count and
prices. -/
def PosOK (p : BTPosition) : Prop :=
  0 ≤ p.shares ∧ 0 ≤ p.entry_price ∧ 0 ≤ p.current_price
    ∧ 0 ≤ p.highest_price ∧ 0 ≤ p.stop_loss

/-- The simulation invariant: cash is never negative and every open
position is numerically sane. -/
def CashInv (st : BTState) : Prop :=
  0 ≤ st.cash ∧ ∀ cp ∈ st.positions, PosOK cp.2

/-! ## Concrete scenarios used by counterexamples and witnesses -/

/-- A placeholder `TrailingStopResult` for out-of-range list reads. -/
def noResult : TrailingStopResult :=
  { entry_price := 0, current_price := 0, highest_price := 0, profit_pct := 0,
    profit_from_high := 0, current_level := 0, stop_price := 0,
    stop_distance_pct := 0, should_exit := false, exit_reason := none }

/-- A backtest run with the engine's constructor defaults. -/
def scenarioConfig : BTConfig := {}

/-- Day 1: symbol 7 closes at 100 with a low of 99, and the scan ranks one
signal for it (close 100, VCP stop 99.5).  The entry fill is
`100 × 1.001 = 100.1` and the day's low 99 already breaches the stop 99.5. -/
def scenarioDay1 : List (ℕ × Bar) × List Signal :=
  ([(7, ⟨100, 99⟩)], [⟨7, 100, 199/2⟩])

/-- Day 2: symbol 7 closes at 93 with a low of 92 (below the stop the
engine recomputes that morning), and the scan returns nothing. -/
def scenarioDay2 : List (ℕ × Bar) × List Signal :=
  ([(7, ⟨93, 92⟩)], [])

/-- Two contractions whose volume ratios are 1 and 0.6: the later strict
half (just the second ratio) is below 0.7 × the earlier strict half (just
the first), yet `_analyze_volume`'s overlapping halves compare 0.6 against
0.7 × mean(1, 0.6) = 0.56. -/
def twoContractions : List Contraction :=
  [⟨100, 90, 10, 5, 1000, 1⟩, ⟨95, 92, 5, 4, 600, 3/5⟩]

/-- A constant 250-bar price series (dates 0…249, every price and volume 1). -/
def constantSeries : List PriceBar :=
  (List.range 250).map fun i => ⟨i, 1, 1, 1, 1, 1⟩

/-!
# Theorems

Helper lemmas first, then one theorem per claim of the specification review
(with a closed witness wherever the claim's theorem carries hypotheses).
-/

theorem pyInt_nonneg {q : ℚ} (h : 0 ≤ q) : 0 ≤ pyInt q := by
  simp only [pyInt, if_pos h]
  exact Int.le_floor.mpr (by exact_mod_cast h)

theorem pyInt_le {q : ℚ} (h : 0 ≤ q) : (pyInt q : ℚ) ≤ q := by
  simp only [pyInt, if_pos h]
  exact Int.floor_le q

theorem pyInt_zero : pyInt 0 = 0 := by simp [pyInt]

theorem floor_le_pyRound (q : ℚ) : ⌊q⌋ ≤ pyRound q := by
  unfold pyRound; split_ifs <;> omega

theorem pyRound_le_floor_add_one (q : ℚ) : pyRound q ≤ ⌊q⌋ + 1 := by
  unfold pyRound; split_ifs <;> omega

theorem pyRound_mono {q q' : ℚ} (h : q ≤ q') : pyRound q ≤ pyRound q' := by
  rcases lt_or_eq_of_le (Int.floor_le_floor h) with hf | hf
  · calc pyRound q ≤ ⌊q⌋ + 1 := pyRound_le_floor_add_one q
      _ ≤ ⌊q'⌋ := by omega
      _ ≤ pyRound q' := floor_le_pyRound q'
  · unfold pyRound
    rw [hf] at *
    have hr : q - ⌊q'⌋ ≤ q' - ⌊q'⌋ := by linarith
    split_ifs with h1 h2 h3 h4 h5 h6 h7 h8 <;> try omega
    all_goals (exfalso; try linarith)

theorem pyRound_intCast (n : ℤ) : pyRound (n : ℚ) = n := by
  unfold pyRound
  rw [Int.floor_intCast]
  norm_num

/-- **C1** (refuted; the code contradicts its own "손절가는 절대로 하향 조정하지
않음 (only up)" docstring).  With defaults (`initial 7%`, trailing levels
(5%,5%) (10%,8%) (20%,10%) (50%,15%), breakeven at 10%), the successive
calls of `simulate_trailing` — entry 10000, prices 10000, 11000, 12000 and
then the pullback 9000, the caller persisting `highest_price` and
`current_level` — return the stop prices 9300, 10120, 11040, 10800: the
stop returned at the pullback step (10800) is *lower* than the stop
returned at the highest=12000 step (11040, the level-2 stop
`12000 × 0.92`), because once level 3 (trail 10%) is persisted the level-2
comparison stop is no longer computed. -/
theorem trailing_stop_price_can_decrease :
    ((simulateTrailing defaultStopManager 10000 [10000, 11000, 12000, 9000]).map
        (·.stop_price)) = [9300, 10120, 11040, 10800]
    ∧ ((simulateTrailing defaultStopManager 10000
          [10000, 11000, 12000, 9000]).getD 3 noResult).stop_price
      < ((simulateTrailing defaultStopManager 10000
          [10000, 11000, 12000, 9000]).getD 2 noResult).stop_price := by
  constructor <;>
    norm_num [simulateTrailing, simulateTrailingAux, calculateStop,
      calculateStopPrice, getCurrentLevel, buildLevels, levelAt,
      defaultStopManager, noResult, List.enum, List.enumFrom, List.getD]

/-- **C2** counterexample: the stop-price monotonicity invariant is
violable, and when it is violated nothing is raised.  Continuing from the
persisted state of the highest=12000 step (`r3`, stop 11040, level 3), the
pullback call computes a stop of 10800 — *lower* than the persisted
11040 — and returns it as an ordinary `TrailingStopResult` (with an exit
signal), not an error: no `InvariantViolation` exists anywhere in the
repository. -/
theorem stop_below_persisted_returned_as_plain_result :
    ((calculateStop defaultStopManager 10000 9000
        (calculateStop defaultStopManager 10000 12000 11000 2).highest_price
        (calculateStop defaultStopManager 10000 12000 11000 2).current_level).stop_price
      < (calculateStop defaultStopManager 10000 12000 11000 2).stop_price)
    ∧ (calculateStop defaultStopManager 10000 9000
        (calculateStop defaultStopManager 10000 12000 11000 2).highest_price
        (calculateStop defaultStopManager 10000 12000 11000 2).current_level).stop_price
      = 10800 := by
  constructor <;>
    norm_num [calculateStop, calculateStopPrice, getCurrentLevel, buildLevels,
      levelAt, defaultStopManager, List.enum, List.enumFrom]

/-- **C2** (amended): no `InvariantViolation` is raised anywhere; a newly
computed stop lower than the previously persisted stop is silently adopted.
In the repository's own sequential driver `simulate_trailing` (entry 10000,
prices 10000, 11000, 12000, 9000, defaults), all four calls return ordinary
results, and the persisted stop drops from 11040 at the third call to 10800
at the fourth. -/
theorem stop_below_persisted_silently_adopted :
    (simulateTrailing defaultStopManager 10000 [10000, 11000, 12000, 9000]).length = 4
    ∧ ((simulateTrailing defaultStopManager 10000
          [10000, 11000, 12000, 9000]).getD 2 noResult).stop_price = 11040
    ∧ ((simulateTrailing defaultStopManager 10000
          [10000, 11000, 12000, 9000]).getD 3 noResult).stop_price = 10800 := by
  refine ⟨?_, ?_, ?_⟩ <;>
    norm_num [simulateTrailing, simulateTrailingAux, calculateStop,
      calculateStopPrice, getCurrentLevel, buildLevels, levelAt,
      defaultStopManager, noResult, List.enum, List.enumFrom, List.getD]

/-- **C4** counterexample: with the count cap binding first
(`current_positions = max_positions = 8`, defaults otherwise), the returned
limiting-constraint label is the minimum-notional one, not the
position-count one: the minimum-notional check re-fires on the zeroed size
(`0 < 1,000,000`) and overwrites the recorded label. -/
theorem count_capped_sizer_reports_min_notional :
    (calculatePositionSize defaultRiskManager 100000000 50000 46500 8 0 none 0 1).size_limited_by
      = some SizeLimit.minNotional
    ∧ (calculatePositionSize defaultRiskManager 100000000 50000 46500 8 0 none 0 1).size_limited_by
      ≠ some SizeLimit.countCap := by
  constructor
  · norm_num [calculatePositionSize, sizeAfterCount, sizeAfterSingle,
      sizeAfterExposure, sizeAfterSector, sizeAfterMin, defaultRiskManager,
      pyInt]
  · norm_num [calculatePositionSize, sizeAfterCount, sizeAfterSingle,
      sizeAfterExposure, sizeAfterSector, sizeAfterMin, defaultRiskManager,
      pyInt]
    decide

/-- **C4** (amended): the constraints are applied in the stated order
(a)–(f), but the reported label is not always the first binding one: the
exposure-exhausted, sector-exhausted and minimum-notional zeroing branches
overwrite any previously recorded label (only the shrinking branches test
`size_limited_by is None` first).  In particular, whenever the
position-count cap (a) binds, the returned size is 0 but the returned label
is the minimum-notional one, for every position sizer whose single-position
percentage is non-negative and whose minimum notional is positive. -/
theorem count_cap_zeroes_size_min_notional_label
    (rm : RiskManager) (account entry stop currentExposure sectorExposure : ℚ)
    (sector : Option String) (lot : ℤ) (currentPositions : ℕ)
    (hentry : 0 < entry) (haccount : 0 ≤ account)
    (hsingle : 0 ≤ rm.max_single_position_pct)
    (hmin : 0 < rm.min_position_value)
    (hcap : rm.max_positions ≤ currentPositions) :
    (calculatePositionSize rm account entry stop currentPositions
        currentExposure sector sectorExposure lot).position_size = 0
    ∧ (calculatePositionSize rm account entry stop currentPositions
        currentExposure sector sectorExposure lot).size_limited_by
      = some SizeLimit.minNotional := by
  have h1 : sizeAfterCount rm currentPositions
      (if 0 < |entry - stop| then pyInt (account * rm.max_risk_per_trade / |entry - stop|) else 0)
      = (0, some .countCap) := by
    simp [sizeAfterCount, hcap]
  have h2 : sizeAfterSingle rm account entry (0, some .countCap) = (0, some .countCap) := by
    have hnn : ¬ (account * rm.max_single_position_pct < 0) :=
      not_lt.mpr (mul_nonneg haccount hsingle)
    simp [sizeAfterSingle, hnn]
  have h3fst : (sizeAfterExposure rm account entry currentExposure (0, some .countCap)).1 = 0 := by
    by_cases hA : rm.max_portfolio_exposure - currentExposure ≤ 0
    · simp [sizeAfterExposure, hA]
    · have hB : ¬ (pyInt (account * (rm.max_portfolio_exposure - currentExposure) / entry) < 0) :=
        not_lt.mpr (pyInt_nonneg
          (div_nonneg (mul_nonneg haccount (not_le.mp hA).le) hentry.le))
      simp [sizeAfterExposure, hA, hB]
  have h4fst : ∀ s : ℤ × Option SizeLimit, s.1 = 0 →
      (sizeAfterSector rm account entry sector sectorExposure s).1 = 0 := by
    intro s hs
    cases sector with
    | none => simp only [sizeAfterSector]; exact hs
    | some sec =>
      by_cases hA : rm.max_sector_concentration - sectorExposure ≤ 0
      · simp [sizeAfterSector, hA]
      · have hB : ¬ (pyInt (account * (rm.max_sector_concentration - sectorExposure) / entry) < 0) :=
          not_lt.mpr (pyInt_nonneg
            (div_nonneg (mul_nonneg haccount (not_le.mp hA).le) hentry.le))
        simp [sizeAfterSector, hA, hs, hB]
  have h5 : ∀ s : ℤ × Option SizeLimit, s.1 = 0 →
      sizeAfterMin rm entry s = (0, some .minNotional) := by
    intro s hs
    unfold sizeAfterMin
    rw [hs]
    simp [hmin]
  simp only [calculatePositionSize]
  rw [h1, h2, h5 _ (h4fst _ h3fst)]
  simp [Int.zero_fdiv]

/-- **C4** witness: the amended theorem at a concrete input
(`entry=50000 > 0`, `account=100,000,000 ≥ 0`, defaults, count cap hit with
8 positions). -/
theorem count_cap_zeroes_size_min_notional_label_witness :
    ((0:ℚ) < 50000 ∧ (0:ℚ) ≤ 100000000
      ∧ (0:ℚ) ≤ defaultRiskManager.max_single_position_pct
      ∧ (0:ℚ) < defaultRiskManager.min_position_value
      ∧ defaultRiskManager.max_positions ≤ 8)
    ∧ ((calculatePositionSize defaultRiskManager 100000000 50000 46500 8 0
          (some "tech") (1/10) 10).position_size = 0
      ∧ (calculatePositionSize defaultRiskManager 100000000 50000 46500 8 0
          (some "tech") (1/10) 10).size_limited_by = some SizeLimit.minNotional) :=
  ⟨⟨by norm_num, by norm_num, by norm_num [defaultRiskManager],
    by norm_num [defaultRiskManager], by norm_num [defaultRiskManager]⟩,
   count_cap_zeroes_size_min_notional_label defaultRiskManager 100000000 50000
     46500 0 (1/10) (some "tech") 10 8 (by norm_num) (by norm_num)
     (by norm_num [defaultRiskManager]) (by norm_num [defaultRiskManager])
     (by norm_num [defaultRiskManager])⟩

/-- **C6** (confirmed): for `entry=50000`, `stop=46500`,
`account=100,000,000` and the default `max_risk_per_trade=2%`,
`max_single_position_pct=15%`: `risk_amount = 2,000,000`,
`risk_per_share = 3,500`, pre-constraint size `⌊2,000,000/3,500⌋ = 571`,
and the single-position cap shrinks the result to 300 shares worth
15,000,000 (≤ 15% of the account). -/
theorem position_sizer_example_values :
    (calculatePositionSize defaultRiskManager 100000000 50000 46500 0 0 none 0 1).risk_amount
      = 2000000
    ∧ (calculatePositionSize defaultRiskManager 100000000 50000 46500 0 0 none 0 1).risk_per_share
      = 3500
    ∧ (calculatePositionSize defaultRiskManager 100000000 50000 46500 0 0 none 0 1).original_size
      = 571
    ∧ (calculatePositionSize defaultRiskManager 100000000 50000 46500 0 0 none 0 1).position_value
      ≤ 15000000
    ∧ (calculatePositionSize defaultRiskManager 100000000 50000 46500 0 0 none 0 1).position_size
      ≤ 300 := by
  refine ⟨?_, ?_, ?_, ?_, ?_⟩ <;>
    norm_num [calculatePositionSize, sizeAfterCount, sizeAfterSingle,
      sizeAfterExposure, sizeAfterSector, sizeAfterMin, defaultRiskManager,
      pyInt]

/-- **C5** counterexample: for the ratio list `[1, 0.6]` the spec's strict
halves satisfy the dry-up inequality (`0.6 < 1 × 0.7`), but
`_analyze_volume` reports `dry_up = false`, because its "earlier half"
`volume_ratios[: n//2 + 1]` also contains the middle element:
it compares `0.6 < mean(1, 0.6) × 0.7 = 0.56`. -/
theorem volume_dry_up_not_strict_halves :
    (analyzeVolume (7/10) twoContractions).dry_up = false
    ∧ listMean ((twoContractions.map (·.volume_ratio)).drop (twoContractions.length / 2))
      < listMean ((twoContractions.map (·.volume_ratio)).take (twoContractions.length / 2))
        * (7/10) := by
  constructor <;> norm_num [analyzeVolume, twoContractions, listMean]

/-- **C5** (amended): for every contraction list of length ≥ 2, volume
dry-up is reported true iff the mean of `volume_ratios[n//2 :]` is below
the mean of `volume_ratios[: n//2 + 1]` times the decline threshold — the
two slices overlap at index `n//2`, so these are not the strict later and
earlier halves of the list. -/
theorem volume_dry_up_iff_overlapping_halves (θ : ℚ) (cs : List Contraction)
    (h2 : 2 ≤ cs.length) :
    (analyzeVolume θ cs).dry_up = true
      ↔ listMean ((cs.map (·.volume_ratio)).drop (cs.length / 2))
          < listMean ((cs.map (·.volume_ratio)).take (cs.length / 2 + 1)) * θ := by
  cases cs with
  | nil => simp at h2
  | cons a t =>
    simp only [analyzeVolume, List.length_map]
    rw [if_pos h2]
    simp [decide_eq_true_iff]

/-- **C5** witness: the amended characterization applied to the concrete
two-contraction list. -/
theorem volume_dry_up_iff_overlapping_halves_witness :
    2 ≤ twoContractions.length
    ∧ ((analyzeVolume (7/10) twoContractions).dry_up = true
      ↔ listMean ((twoContractions.map (·.volume_ratio)).drop (twoContractions.length / 2))
          < listMean ((twoContractions.map (·.volume_ratio)).take (twoContractions.length / 2 + 1))
            * (7/10)) :=
  ⟨by norm_num [twoContractions],
   volume_dry_up_iff_overlapping_halves (7/10) twoContractions
     (by norm_num [twoContractions])⟩

/-- **C7** (confirmed): in every non-empty universe the RS rating of a raw
score `x` equals `round(100 × |{u ∈ U : u < x}| / |U|)` (strict `<`, Python
banker's rounding), lies in `[0, 100]`, and is monotone: a strictly higher
raw score never receives a smaller rating (so ties share the same rating by
congruence). -/
theorem rs_percentile_formula (U : List ℚ) (x y : ℚ) (hU : U ≠ []) :
    rsRating U x
      = pyRound (100 * (U.countP (fun u => decide (u < x)) : ℚ) / (U.length : ℚ))
    ∧ 0 ≤ rsRating U x ∧ rsRating U x ≤ 100
    ∧ (y < x → rsRating U y ≤ rsRating U x) := by
  have hn : 0 < (U.length : ℚ) := by
    exact_mod_cast List.length_pos.mpr hU
  have hp0 : pyRound (0:ℚ) = 0 := by simpa using pyRound_intCast 0
  have hp100 : pyRound (100:ℚ) = 100 := by simpa using pyRound_intCast 100
  have hbound : ∀ z : ℚ, (0:ℚ) ≤ (U.countP (fun u => decide (u < z)) : ℚ)
      ∧ (U.countP (fun u => decide (u < z)) : ℚ) ≤ (U.length : ℚ) := by
    intro z
    constructor
    · positivity
    · exact_mod_cast List.countP_le_length _
  have hq : ∀ z : ℚ, 0 ≤ (U.countP (fun u => decide (u < z)) : ℚ) / (U.length : ℚ) * 100
      ∧ (U.countP (fun u => decide (u < z)) : ℚ) / (U.length : ℚ) * 100 ≤ 100 := by
    intro z
    obtain ⟨h0, h1⟩ := hbound z
    constructor
    · positivity
    · have hdiv : (U.countP (fun u => decide (u < z)) : ℚ) / (U.length : ℚ) ≤ 1 :=
        (div_le_one hn).mpr h1
      nlinarith
  refine ⟨?_, ?_, ?_, ?_⟩
  · unfold rsRating
    congr 1
    ring
  · calc (0:ℤ) = pyRound 0 := hp0.symm
      _ ≤ rsRating U x := pyRound_mono (hq x).1
  · calc rsRating U x ≤ pyRound 100 := pyRound_mono (hq x).2
      _ = 100 := hp100
  · intro hyx
    have hcount : U.countP (fun u => decide (u < y)) ≤ U.countP (fun u => decide (u < x)) := by
      refine List.countP_mono_left fun a _ ha => ?_
      simp only [decide_eq_true_iff] at ha ⊢
      linarith
    have hcq : (U.countP (fun u => decide (u < y)) : ℚ)
        ≤ (U.countP (fun u => decide (u < x)) : ℚ) := by exact_mod_cast hcount
    exact pyRound_mono (by gcongr)

/-- **C7** witness: the formula, bounds and monotonicity at the concrete
universe `[1, 2]` with raw scores 2 and 1. -/
theorem rs_percentile_formula_witness :
    ([(1:ℚ), 2] ≠ [])
    ∧ rsRating [1, 2] 2
        = pyRound (100 * (([(1:ℚ), 2].countP (fun u => decide (u < 2))) : ℚ)
            / (([(1:ℚ), 2].length : ℚ)))
    ∧ 0 ≤ rsRating [1, 2] 2 ∧ rsRating [1, 2] 2 ≤ 100
    ∧ rsRating [1, 2] 1 ≤ rsRating [1, 2] 2 :=
  ⟨by simp,
   (rs_percentile_formula [1, 2] 2 1 (by simp)).1,
   (rs_percentile_formula [1, 2] 2 1 (by simp)).2.1,
   (rs_percentile_formula [1, 2] 2 1 (by simp)).2.2.1,
   (rs_percentile_formula [1, 2] 2 1 (by simp)).2.2.2 (by norm_num)⟩

theorem progressiveOK_iff (r : ℚ) (l : List ℚ) :
    progressiveOK r l = true
      ↔ ∀ i (h : i + 1 < l.length),
          l.get ⟨i + 1, h⟩ ≤ l.get ⟨i, Nat.lt_of_succ_lt h⟩ * r := by
  induction l with
  | nil =>
    simp only [progressiveOK, List.length_nil]
    constructor
    · intro _ i h; omega
    · intro _; trivial
  | cons a t ih =>
    cases t with
    | nil =>
      simp only [progressiveOK, List.length_cons, List.length_nil]
      constructor
      · intro _ i h; omega
      · intro _; trivial
    | cons b t' =>
      rw [progressiveOK, Bool.and_eq_true, decide_eq_true_iff, ih]
      constructor
      · rintro ⟨hab, hrest⟩ i h
        match i with
        | 0 => simpa using hab
        | j + 1 =>
          have h' : j + 1 < (b :: t').length := by
            simpa using Nat.lt_of_succ_lt_succ h
          simpa using hrest j h'
      · intro hall
        refine ⟨?_, fun j h' => ?_⟩
        · simpa using hall 0 (by simp)
        · simpa using hall (j + 1) (by simpa using Nat.succ_lt_succ h')

/-- **C8** (confirmed): past the minimum-count check, a progressive-
tightening violation (`depth[i+1] > depth[i] × 0.7` somewhere) makes the
detector return the structured result `detected = false, score = 15`; and
conversely every outcome with `detected = true` satisfies
`depth[i+1] ≤ depth[i] × 0.7` at every adjacent pair (defaults:
`min_contractions = 2`, `contraction_ratio = 0.7`). -/
theorem vcp_progressive_tightening (cs : List Contraction) (bh bl lbh : ℚ) :
    (2 ≤ cs.length →
      (∃ i, ∃ h : i + 1 < cs.length,
        (cs.get ⟨i, Nat.lt_of_succ_lt h⟩).depth_pct * (7/10)
          < (cs.get ⟨i + 1, h⟩).depth_pct) →
      (vcpEvaluate defaultVCPConfig cs bh bl lbh).detected = false
        ∧ (vcpEvaluate defaultVCPConfig cs bh bl lbh).score = 15)
    ∧ ((vcpEvaluate defaultVCPConfig cs bh bl lbh).detected = true →
      ∀ i (h : i + 1 < cs.length),
        (cs.get ⟨i + 1, h⟩).depth_pct
          ≤ (cs.get ⟨i, Nat.lt_of_succ_lt h⟩).depth_pct * (7/10)) := by
  have hdepth : ∀ (j : ℕ) (hj : j < cs.length),
      (cs.map (·.depth_pct)).get ⟨j, by simpa using hj⟩ = (cs.get ⟨j, hj⟩).depth_pct := by
    intro j hj
    simp
  constructor
  · intro hlen ⟨i, h, hviol⟩
    have hvalidate : validateProgressiveContractions
        defaultVCPConfig.contraction_ratio cs = false := by
      unfold validateProgressiveContractions
      rw [if_neg (by omega)]
      rw [Bool.eq_false_iff]
      intro hok
      have := (progressiveOK_iff _ _).mp hok i (by simpa using h)
      rw [hdepth i (Nat.lt_of_succ_lt h), hdepth (i+1) h] at this
      have : (cs.get ⟨i + 1, h⟩).depth_pct
          ≤ (cs.get ⟨i, Nat.lt_of_succ_lt h⟩).depth_pct * defaultVCPConfig.contraction_ratio := this
      simp only [defaultVCPConfig] at this
      linarith
    unfold vcpEvaluate
    rw [if_neg (by simp only [defaultVCPConfig]; omega)]
    rw [if_pos (by simp [hvalidate])]
    exact ⟨rfl, rfl⟩
  · intro hdet i h
    by_cases hc1 : cs.length < defaultVCPConfig.min_contractions
    · exfalso
      unfold vcpEvaluate at hdet
      rw [if_pos hc1] at hdet
      simp at hdet
    by_cases hc2 : validateProgressiveContractions defaultVCPConfig.contraction_ratio cs = true
    · have hok : progressiveOK defaultVCPConfig.contraction_ratio
          (cs.map (·.depth_pct)) = true := by
        unfold validateProgressiveContractions at hc2
        by_cases hlen2 : cs.length < 2
        · rw [if_pos hlen2] at hc2; exact absurd hc2 (by simp)
        · rwa [if_neg hlen2] at hc2
      have := (progressiveOK_iff _ _).mp hok i (by simpa using h)
      rw [hdepth i (Nat.lt_of_succ_lt h), hdepth (i+1) h] at this
      simpa [defaultVCPConfig] using this
    · exfalso
      unfold vcpEvaluate at hdet
      rw [if_neg hc1] at hdet
      rw [if_pos (by simpa using hc2)] at hdet
      simp at hdet

/-- **C8** witness: the theorem at a concrete two-contraction list whose
step violates tightening (`depth 20 → 18`, and `18 > 20 × 0.7`). -/
theorem vcp_progressive_tightening_witness :
    2 ≤ ([⟨100, 80, 20, 5, 1000, 1⟩, ⟨95, 85, 18, 4, 900, 9/10⟩] : List Contraction).length
    ∧ (vcpEvaluate defaultVCPConfig
        [⟨100, 80, 20, 5, 1000, 1⟩, ⟨95, 85, 18, 4, 900, 9/10⟩] 100 80 95).detected = false
    ∧ (vcpEvaluate defaultVCPConfig
        [⟨100, 80, 20, 5, 1000, 1⟩, ⟨95, 85, 18, 4, 900, 9/10⟩] 100 80 95).score = 15 :=
  ⟨by norm_num,
   (vcp_progressive_tightening
       [⟨100, 80, 20, 5, 1000, 1⟩, ⟨95, 85, 18, 4, 900, 9/10⟩] 100 80 95).1
     (by norm_num) ⟨0, by norm_num, by norm_num⟩⟩

theorem all_id_iff_count_eq_length (l : List Bool) :
    l.all id = true ↔ l.count true = l.length := by
  induction l with
  | nil => simp
  | cons a t ih =>
    cases a with
    | true => simpa [List.count_cons] using ih
    | false =>
      have hle := List.count_le_length (a := true) (l := t)
      simp [List.count_cons]
      omega

theorem mkTrendResult_spec (rs : Option ℤ) (b1 b2 b3 b4 b5 b6 b7 b8 : Bool) :
    (mkTrendResult rs b1 b2 b3 b4 b5 b6 b7 b8).score
      = [(mkTrendResult rs b1 b2 b3 b4 b5 b6 b7 b8).price_above_150ma,
         (mkTrendResult rs b1 b2 b3 b4 b5 b6 b7 b8).price_above_50ma,
         (mkTrendResult rs b1 b2 b3 b4 b5 b6 b7 b8).ma_alignment,
         (mkTrendResult rs b1 b2 b3 b4 b5 b6 b7 b8).ma200_rising,
         (mkTrendResult rs b1 b2 b3 b4 b5 b6 b7 b8).above_52w_low,
         (mkTrendResult rs b1 b2 b3 b4 b5 b6 b7 b8).within_52w_high,
         (mkTrendResult rs b1 b2 b3 b4 b5 b6 b7 b8).rs_above_threshold,
         (mkTrendResult rs b1 b2 b3 b4 b5 b6 b7 b8).above_base].count true
    ∧ (mkTrendResult rs b1 b2 b3 b4 b5 b6 b7 b8).score ≤ 8
    ∧ ((mkTrendResult rs b1 b2 b3 b4 b5 b6 b7 b8).passes = true
        ↔ (mkTrendResult rs b1 b2 b3 b4 b5 b6 b7 b8).score = 8) := by
  refine ⟨rfl, ?_, ?_⟩
  · simpa using List.count_le_length (a := true) (l := [b1, b2, b3, b4, b5, b6, b7, b8])
  · simp only [mkTrendResult]
    rw [all_id_iff_count_eq_length]
    simp

/-- **C9** (confirmed): for every series of at least 250 bars (and any
optional RS rating), the trend-template result's aggregate score equals the
number of `true` values among its eight criterion booleans, lies in
`[0, 8]`, and `passes` holds exactly when the score is 8. -/
theorem trend_score_counts_criteria (series : List PriceBar) (rs : Option ℤ)
    (h : 250 ≤ series.length) :
    (trendAnalyze series rs).score
      = [(trendAnalyze series rs).price_above_150ma,
         (trendAnalyze series rs).price_above_50ma,
         (trendAnalyze series rs).ma_alignment,
         (trendAnalyze series rs).ma200_rising,
         (trendAnalyze series rs).above_52w_low,
         (trendAnalyze series rs).within_52w_high,
         (trendAnalyze series rs).rs_above_threshold,
         (trendAnalyze series rs).above_base].count true
    ∧ (trendAnalyze series rs).score ≤ 8
    ∧ ((trendAnalyze series rs).passes = true ↔ (trendAnalyze series rs).score = 8) := by
  have hn : ¬ series.length < 250 := not_lt.mpr h
  unfold trendAnalyze
  rw [if_neg hn]
  exact mkTrendResult_spec rs _ _ _ _ _ _ _ _

/-- **C9** witness: the aggregation properties at the concrete constant
250-bar series with no RS rating supplied. -/
theorem trend_score_counts_criteria_witness :
    250 ≤ constantSeries.length
    ∧ ((trendAnalyze constantSeries none).score
        = [(trendAnalyze constantSeries none).price_above_150ma,
           (trendAnalyze constantSeries none).price_above_50ma,
           (trendAnalyze constantSeries none).ma_alignment,
           (trendAnalyze constantSeries none).ma200_rising,
           (trendAnalyze constantSeries none).above_52w_low,
           (trendAnalyze constantSeries none).within_52w_high,
           (trendAnalyze constantSeries none).rs_above_threshold,
           (trendAnalyze constantSeries none).above_base].count true
      ∧ (trendAnalyze constantSeries none).score ≤ 8
      ∧ ((trendAnalyze constantSeries none).passes = true
          ↔ (trendAnalyze constantSeries none).score = 8)) :=
  ⟨by simp [constantSeries],
   trend_score_counts_criteria constantSeries none (by simp [constantSeries])⟩

theorem levelAt_mem (m : StopLossManager) (i : ℕ) :
    levelAt m i ∈ buildLevels m := by
  unfold levelAt
  cases hget : (buildLevels m).get? i with
  | some l => exact List.get?_mem hget
  | none => exact List.getLast_mem _

theorem defaultLevels_trail_le_100 :
    ∀ l ∈ buildLevels defaultStopManager, l.trail_percent ≤ 100 := by
  intro l hl
  simp only [buildLevels, defaultStopManager, List.enum, List.enumFrom,
    List.map, List.mem_cons, List.not_mem_nil, or_false] at hl
  rcases hl with h | h | h | h | h <;> (rw [h]; norm_num)

theorem calculateStopPrice_nonneg (entry highest : ℚ) (lvl : ℕ)
    (he : 0 ≤ entry) (hh : 0 ≤ highest) :
    0 ≤ calculateStopPrice defaultStopManager entry highest lvl := by
  have htrail := defaultLevels_trail_le_100 _ (levelAt_mem defaultStopManager lvl)
  have hfac : 0 ≤ 1 - (levelAt defaultStopManager lvl).trail_percent / 100 := by
    linarith
  have hstop : 0 ≤ (match (levelAt defaultStopManager lvl).stop_type with
      | StopType.initial => entry * (1 - (levelAt defaultStopManager lvl).trail_percent / 100)
      | StopType.trailing => highest * (1 - (levelAt defaultStopManager lvl).trail_percent / 100)) := by
    cases (levelAt defaultStopManager lvl).stop_type with
    | initial => exact mul_nonneg he hfac
    | trailing => exact mul_nonneg hh hfac
  unfold calculateStopPrice
  split_ifs with h1 h2
  · exact le_max_of_le_left hstop
  · exact hstop
  · exact hstop

theorem calculateStop_stop_nonneg (entry current highest₀ : ℚ) (lvl : ℕ)
    (he : 0 ≤ entry) (hc : 0 ≤ current) (hh : 0 ≤ highest₀) :
    0 ≤ (calculateStop defaultStopManager entry current highest₀ lvl).stop_price := by
  have hmax : 0 ≤ max highest₀ current := le_max_of_le_left hh
  unfold calculateStop
  simp only
  split_ifs with h1
  · exact le_max_of_le_left
      (calculateStopPrice_nonneg entry (max highest₀ current) _ he hmax)
  · exact calculateStopPrice_nonneg entry (max highest₀ current) _ he hmax

/-! ### Trade provenance: entries never record trades, closes record only
symbols that were open when the maintenance step began. -/

theorem executeEntry_trades (cfg : BTConfig) (sig : Signal) (st : BTState) :
    (executeEntry cfg sig st).trades = st.trades := by
  simp only [executeEntry]
  split_ifs <;> rfl

theorem entryFold_trades (cfg : BTConfig) (sigs : List Signal) (st : BTState) :
    ((sigs.foldl (fun s sig => executeEntry cfg sig s) st)).trades = st.trades := by
  induction sigs generalizing st with
  | nil => rfl
  | cons sig rest ih => rw [List.foldl_cons, ih, executeEntry_trades]

theorem closePosition_trades (cfg : BTConfig) (c : ℕ) (ex : ℚ)
    (r : BTExitReason) (st : BTState) :
    ∀ t ∈ (closePosition cfg c ex r st).trades, t ∈ st.trades ∨ t.symbol = c := by
  intro t ht
  unfold closePosition at ht
  cases hl : lookupKey st.positions c with
  | none => rw [hl] at ht; exact Or.inl ht
  | some p =>
    rw [hl] at ht
    simp only [List.mem_append, List.mem_singleton] at ht
    rcases ht with ht | ht
    · exact Or.inl ht
    · right; rw [ht]

theorem closeFold_trades (cfg : BTConfig) (l : List (ℕ × ℚ)) (st : BTState) :
    ∀ t ∈ (l.foldl (fun s ce => closePosition cfg ce.1 ce.2 .stopLossExit s) st).trades,
      t ∈ st.trades ∨ t.symbol ∈ l.map Prod.fst := by
  induction l generalizing st with
  | nil => intro t ht; exact Or.inl ht
  | cons ce rest ih =>
    intro t ht
    rw [List.foldl_cons] at ht
    rcases ih _ t ht with hin | hin
    · rcases closePosition_trades cfg ce.1 ce.2 _ st t hin with h | h
      · exact Or.inl h
      · right; simp [h]
    · right; simp [hin]

theorem maintainPosition_fst (bars : List (ℕ × Bar)) (cp : ℕ × BTPosition) :
    (maintainPosition bars cp).1.1 = cp.1 := by
  unfold maintainPosition
  cases (bars.find? fun b => b.1 = cp.1).map (·.2) <;> rfl

theorem updatePositions_trades (cfg : BTConfig) (bars : List (ℕ × Bar)) (st : BTState) :
    ∀ t ∈ (updatePositions cfg bars st).trades,
      t ∈ st.trades ∨ t.symbol ∈ st.positions.map Prod.fst := by
  intro t ht
  unfold updatePositions at ht
  rcases closeFold_trades cfg _ _ t ht with h | h
  · exact Or.inl h
  · right
    simp only [List.map_filterMap, List.mem_filterMap] at h
    obtain ⟨sp, hsp, hmap⟩ := h
    obtain ⟨cp, hcp, hcpeq⟩ := List.mem_map.mp hsp
    have : t.symbol = sp.1.1 := by
      cases hflag : sp.2 with
      | none => rw [hflag] at hmap; simp at hmap
      | some ex => rw [hflag] at hmap; simp at hmap; exact hmap.symm
    rw [this, ← hcpeq, maintainPosition_fst]
    exact List.mem_map_of_mem Prod.fst hcp

/-! ### Preservation of the cash invariant by every state transition -/

theorem closePosition_inv (cfg : BTConfig) (c : ℕ) (ex : ℚ) (r : BTExitReason)
    (st : BTState) (hrates : RatesOK cfg) (hex : 0 ≤ ex) (hinv : CashInv st) :
    CashInv (closePosition cfg c ex r st) := by
  obtain ⟨hcomm0, hcomm1, hslip0, hslip1⟩ := hrates
  obtain ⟨hcash, hpos⟩ := hinv
  cases hl : lookupKey st.positions c with
  | none =>
    simp only [closePosition, hl]
    exact ⟨hcash, hpos⟩
  | some p =>
    have hp : PosOK p := by
      rcases Option.map_eq_some'.mp hl with ⟨cp, hfind, hcp2⟩
      rw [← hcp2]
      exact hpos cp (List.mem_of_find?_eq_some hfind)
    have hshares : (0:ℚ) ≤ (p.shares : ℚ) := by exact_mod_cast hp.1
    simp only [closePosition, hl, CashInv]
    refine ⟨?_, ?_⟩
    · have hactual : 0 ≤ ex * (1 - cfg.slippage_rate) := mul_nonneg hex (by linarith)
      have hproceeds : 0 ≤ ex * (1 - cfg.slippage_rate) * (p.shares : ℚ) :=
        mul_nonneg hactual hshares
      nlinarith
    · intro cp hcp
      exact hpos cp (List.mem_filter.mp hcp).1

theorem maintainPosition_posOK (bars : List (ℕ × Bar)) (cp : ℕ × BTPosition)
    (hbars : BarsOK bars) (hp : PosOK cp.2) :
    PosOK (maintainPosition bars cp).1.2
    ∧ (∀ ex, (maintainPosition bars cp).2 = some ex → 0 ≤ ex) := by
  obtain ⟨hsh, hen, hcur, hhi, hst⟩ := hp
  cases hf : (bars.find? fun b => b.1 = cp.1).map (·.2) with
  | none =>
    refine ⟨by simpa [maintainPosition, hf, PosOK] using ⟨hsh, hen, hcur, hhi, hst⟩, ?_⟩
    intro ex hex
    simp [maintainPosition, hf] at hex
  | some b =>
    have hb : 0 ≤ b.close := by
      rcases Option.map_eq_some'.mp hf with ⟨cb, hfind, h2⟩
      rw [← h2]
      exact hbars cb (List.mem_of_find?_eq_some hfind)
    have hhi' : 0 ≤ (if cp.2.highest_price < b.close then b.close else cp.2.highest_price) := by
      split_ifs <;> assumption
    have hstop' : 0 ≤ (update_stop defaultStopManager cp.2.entry_price b.close
        (if cp.2.highest_price < b.close then b.close else cp.2.highest_price)
        cp.2.stop_loss).stop_price := by
      unfold update_stop
      exact calculateStop_stop_nonneg _ _ _ _ hen hb hhi'
    constructor
    · simpa [maintainPosition, hf, PosOK] using ⟨hsh, hen, hb, hhi', hstop'⟩
    · intro ex hex
      simp only [maintainPosition, hf] at hex
      by_cases hcond : b.low ≤ (update_stop defaultStopManager cp.2.entry_price b.close
          (if cp.2.highest_price < b.close then b.close else cp.2.highest_price)
          cp.2.stop_loss).stop_price
      · rw [if_pos hcond, Option.some_inj] at hex
        rw [← hex]
        exact hstop'
      · rw [if_neg hcond] at hex
        exact absurd hex (by simp)

theorem closeFold_inv (cfg : BTConfig) (l : List (ℕ × ℚ)) (st : BTState)
    (hrates : RatesOK cfg) (hl : ∀ ce ∈ l, 0 ≤ ce.2) (hinv : CashInv st) :
    CashInv (l.foldl (fun s ce => closePosition cfg ce.1 ce.2 .stopLossExit s) st) := by
  induction l generalizing st with
  | nil => exact hinv
  | cons ce rest ih =>
    rw [List.foldl_cons]
    exact ih _ (fun x hx => hl x (List.mem_cons_of_mem ce hx))
      (closePosition_inv cfg ce.1 ce.2 _ st hrates (hl ce (List.mem_cons_self ce rest)) hinv)

theorem updatePositions_inv (cfg : BTConfig) (bars : List (ℕ × Bar)) (st : BTState)
    (hrates : RatesOK cfg) (hbars : BarsOK bars) (hinv : CashInv st) :
    CashInv (updatePositions cfg bars st) := by
  obtain ⟨hcash, hpos⟩ := hinv
  unfold updatePositions
  apply closeFold_inv cfg _ _ hrates
  · intro ce hce
    simp only [List.mem_filterMap] at hce
    obtain ⟨sp, hsp, hflag⟩ := hce
    obtain ⟨cp, hcp, hcpeq⟩ := List.mem_map.mp hsp
    cases hf2 : sp.2 with
    | none => rw [hf2] at hflag; simp at hflag
    | some ex =>
      rw [hf2] at hflag
      simp only [Option.map_some', Option.some_inj] at hflag
      have := (maintainPosition_posOK bars cp hbars (hpos cp hcp)).2 ex (by rw [hcpeq, hf2])
      rw [← hflag]
      simpa using this
  · refine ⟨hcash, ?_⟩
    intro cp' hcp'
    simp only [List.map_map, List.mem_map] at hcp'
    obtain ⟨cp, hcp, hcpeq⟩ := hcp'
    rw [← hcpeq]
    exact (maintainPosition_posOK bars cp hbars (hpos cp hcp)).1

theorem executeEntry_inv (cfg : BTConfig) (sig : Signal) (st : BTState)
    (hrates : RatesOK cfg) (hsigp : 0 ≤ sig.price) (hsigs : 0 ≤ sig.stop_loss)
    (hinv : CashInv st) : CashInv (executeEntry cfg sig st) := by
  obtain ⟨hcomm0, hcomm1, hslip0, hslip1⟩ := hrates
  obtain ⟨hcash, hpos⟩ := hinv
  have hentry : 0 ≤ sig.price * (1 + cfg.slippage_rate) :=
    mul_nonneg hsigp (by linarith)
  have htail : ∀ cp ∈ removeKey st.positions sig.symbol, PosOK cp.2 := by
    intro cp hcp
    exact hpos cp (List.mem_filter.mp hcp).1
  simp only [executeEntry]
  split_ifs with h1 h2 h3
  · exact ⟨hcash, hpos⟩
  · exact ⟨hcash, hpos⟩
  · -- shrink branch: shares' = pyInt(cash × 0.95 / entry) > 0
    set entry := sig.price * (1 + cfg.slippage_rate) with hentrydef
    set shares' := pyInt (st.cash * (95/100) / entry) with hsharesdef
    have hshpos : 0 < shares' := lt_of_not_le h3
    have hentry_ne : entry ≠ 0 := by
      intro h0
      rw [h0] at hsharesdef
      simp [pyInt_zero] at hsharesdef
      omega
    have hentry_pos : 0 < entry := lt_of_le_of_ne hentry (Ne.symm hentry_ne)
    have hq : 0 ≤ st.cash * (95/100) / entry := by positivity
    have hsle : (shares' : ℚ) ≤ st.cash * (95/100) / entry := by
      rw [hsharesdef]; exact pyInt_le hq
    have hcost : entry * (shares' : ℚ) ≤ st.cash * (95/100) := by
      have := mul_le_mul_of_nonneg_left hsle hentry
      rwa [mul_div_cancel₀ _ hentry_ne] at this
    have hcost0 : 0 ≤ entry * (shares' : ℚ) :=
      mul_nonneg hentry (by exact_mod_cast hshpos.le)
    refine ⟨?_, ?_⟩
    · have hc1 : entry * (shares' : ℚ) * cfg.commission_rate
          ≤ st.cash * (95/100) * (1/20) := by
        calc entry * (shares' : ℚ) * cfg.commission_rate
            ≤ st.cash * (95/100) * cfg.commission_rate :=
              mul_le_mul_of_nonneg_right hcost hcomm0
          _ ≤ st.cash * (95/100) * (1/20) := by
              have h95 : 0 ≤ st.cash * (95/100) := by positivity
              exact mul_le_mul_of_nonneg_left hcomm1 h95
      simp only
      linarith
    · intro cp hcp
      rcases List.mem_cons.mp hcp with hcp | hcp
      · rw [hcp]
        exact ⟨hshpos.le, hentry, hentry, hentry, hsigs⟩
      · exact htail cp hcp
  · -- affordable branch: total cost already fits in cash
    have hle := not_lt.mp h2
    refine ⟨?_, ?_⟩
    · simp only
      linarith
    · intro cp hcp
      rcases List.mem_cons.mp hcp with hcp | hcp
      · rw [hcp]
        exact ⟨(lt_of_not_le h1).le, hentry, hentry, hentry, hsigs⟩
      · exact htail cp hcp

theorem entryFold_inv (cfg : BTConfig) (sigs : List Signal) (st : BTState)
    (hrates : RatesOK cfg) (hsigs : SignalsOK sigs) (hinv : CashInv st) :
    CashInv (sigs.foldl (fun s sig => executeEntry cfg sig s) st) := by
  induction sigs generalizing st with
  | nil => exact hinv
  | cons sig rest ih =>
    rw [List.foldl_cons]
    have hsig := hsigs sig (List.mem_cons_self sig rest)
    exact ih _ (fun x hx => hsigs x (List.mem_cons_of_mem sig hx))
      (executeEntry_inv cfg sig st hrates hsig.1 hsig.2 hinv)

theorem dayStep_inv (cfg : BTConfig) (day : List (ℕ × Bar) × List Signal)
    (st : BTState) (hrates : RatesOK cfg) (hday : DayOK day) (hinv : CashInv st) :
    CashInv (dayStep cfg day st) := by
  have h1 := updatePositions_inv cfg day.1 st hrates hday.1 hinv
  simp only [dayStep]
  split_ifs with h
  · exact entryFold_inv cfg _ _ hrates
      (fun s hs => hday.2 s (List.take_subset _ _ hs)) h1
  · exact h1

theorem daysFold_inv (cfg : BTConfig) (ds : List (List (ℕ × Bar) × List Signal))
    (st : BTState) (hrates : RatesOK cfg) (hds : ∀ d ∈ ds, DayOK d)
    (hinv : CashInv st) :
    CashInv (ds.foldl (fun st day => dayStep cfg day st) st) := by
  induction ds generalizing st with
  | nil => exact hinv
  | cons d rest ih =>
    rw [List.foldl_cons]
    exact ih _ (fun x hx => hds x (List.mem_cons_of_mem d hx))
      (dayStep_inv cfg d st hrates (hds d (List.mem_cons_self d rest)) hinv)

theorem closeAll_inv (cfg : BTConfig) (st : BTState) (hrates : RatesOK cfg)
    (hinv : CashInv st) : CashInv (closeAllPositions cfg st) := by
  unfold closeAllPositions
  generalize st.positions.map Prod.fst = codes
  induction codes generalizing st with
  | nil => exact hinv
  | cons c rest ih =>
    rw [List.foldl_cons]
    apply ih
    cases hl : lookupKey st.positions c with
    | none =>
      simp only [hl]
      exact hinv
    | some p =>
      have hp : PosOK p := by
        rcases Option.map_eq_some'.mp hl with ⟨cp, hfind, hcp2⟩
        rw [← hcp2]
        exact hinv.2 cp (List.mem_of_find?_eq_some hfind)
      simp only [hl]
      exact closePosition_inv cfg c p.current_price _ st hrates hp.2.2.1 hinv

/-- **C10** (confirmed): throughout a simulated run, cash never becomes
negative.  Every entry deducts at most the available cash — an order whose
cost plus commission exceeds cash is shrunk to `int(cash × 0.95 / price)`
shares or skipped — and every exit credits non-negative net proceeds.
Hypotheses: commission rate in `[0, 5%]` (engine default 0.015%), slippage
rate in `[0, 1]` (default 0.1%), non-negative initial capital, and day
inputs with non-negative closes, signal prices and signal stops. -/
theorem backtest_cash_never_negative (cfg : BTConfig) (hrates : RatesOK cfg)
    (cap : ℚ) (hcap : 0 ≤ cap)
    (days : List (List (ℕ × Bar) × List Signal)) (hdays : ∀ d ∈ days, DayOK d) :
    (∀ n, 0 ≤ (runBacktest cfg cap (days.take n)).cash)
    ∧ 0 ≤ (closeAllPositions cfg (runBacktest cfg cap days)).cash := by
  have hinit : CashInv (initialState cap) := by
    refine ⟨hcap, ?_⟩
    intro cp hcp
    simp [initialState] at hcp
  unfold runBacktest
  constructor
  · intro n
    exact (daysFold_inv cfg (days.take n) _ hrates
      (fun d hd => hdays d (List.take_subset n days hd)) hinit).1
  · exact (closeAll_inv cfg _ hrates (daysFold_inv cfg days _ hrates hdays hinit)).1

/-- **C10** witness: the invariant at the concrete two-day scenario run with
the engine defaults and 100,000,000 of initial capital. -/
theorem backtest_cash_never_negative_witness :
    (RatesOK scenarioConfig ∧ (0:ℚ) ≤ 100000000
      ∧ DayOK scenarioDay1 ∧ DayOK scenarioDay2)
    ∧ 0 ≤ (runBacktest scenarioConfig 100000000
        ([scenarioDay1, scenarioDay2].take 1)).cash
    ∧ 0 ≤ (closeAllPositions scenarioConfig
        (runBacktest scenarioConfig 100000000 [scenarioDay1, scenarioDay2])).cash :=
  ⟨⟨by norm_num [RatesOK, scenarioConfig], by norm_num,
    by norm_num [DayOK, BarsOK, SignalsOK, scenarioDay1],
    by norm_num [DayOK, BarsOK, SignalsOK, scenarioDay2]⟩,
   (backtest_cash_never_negative scenarioConfig
     (by norm_num [RatesOK, scenarioConfig]) 100000000 (by norm_num)
     [scenarioDay1, scenarioDay2]
     (by
       intro d hd
       fin_cases hd <;>
         norm_num [DayOK, BarsOK, SignalsOK, scenarioDay1, scenarioDay2])).1 1,
   (backtest_cash_never_negative scenarioConfig
     (by norm_num [RatesOK, scenarioConfig]) 100000000 (by norm_num)
     [scenarioDay1, scenarioDay2]
     (by
       intro d hd
       fin_cases hd <;>
         norm_num [DayOK, BarsOK, SignalsOK, scenarioDay1, scenarioDay2])).2⟩

/-- **C3** counterexample: in the concrete day-1 scenario the scan signals
symbol 7 (close 100, VCP stop 99.5) and the entry fills at 100.1 for 16,666
shares, while the day's low 99 already breaches the stop 99.5 — yet after
the whole day-1 step the position is still open and no exit was recorded,
because `run` performs position maintenance *before* entries: the position
did not exist when the day's maintenance step ran. -/
theorem opening_day_stop_breach_not_flagged :
    ((dayStep scenarioConfig scenarioDay1 (initialState 100000000)).positions.map Prod.fst
      = [7])
    ∧ (∀ cb ∈ scenarioDay1.1,
        ∀ cp ∈ (dayStep scenarioConfig scenarioDay1 (initialState 100000000)).positions,
          cb.2.low ≤ cp.2.stop_loss)
    ∧ (dayStep scenarioConfig scenarioDay1 (initialState 100000000)).trades = [] := by
  refine ⟨?_, ?_, ?_⟩ <;>
    norm_num [dayStep, updatePositions, maintainPosition, executeEntry,
      closePosition, insertKey, removeKey, lookupKey, portfolioValue,
      initialState, engineRiskManager, defaultRiskManager,
      calculatePositionSize, sizeAfterCount, sizeAfterSingle,
      sizeAfterExposure, sizeAfterSector, sizeAfterMin, pyInt, update_stop,
      calculateStop, calculateStopPrice, getCurrentLevel, buildLevels,
      levelAt, defaultStopManager, scenarioConfig, scenarioDay1,
      List.enum, List.enumFrom, Int.fdiv_one, abs_of_nonneg]

/-- **C3** (amended): a position opened on day `t` is never flagged for exit
during day `t` itself — any trade recorded during a day's step belongs to a
position already open when that day's maintenance began (maintenance
precedes entries, and entries record no trades).  The breach is acted on at
the earliest in the next day's maintenance step, and then against the stop
the engine recomputes that day: in the concrete scenario, day 2 (close 93,
low 92, recomputed stop `100.1 × 0.93 = 93.093`) closes the day-1 position
with a stop-loss exit. -/
theorem stop_breach_flagged_not_before_next_day :
    (∀ (cfg : BTConfig) (day : List (ℕ × Bar) × List Signal) (st : BTState),
      ∀ t ∈ (dayStep cfg day st).trades,
        t ∈ st.trades ∨ t.symbol ∈ st.positions.map Prod.fst)
    ∧ ((runBacktest scenarioConfig 100000000 [scenarioDay1, scenarioDay2]).trades.map
          (fun t => (t.symbol, t.reason)) = [(7, BTExitReason.stopLossExit)]
      ∧ (runBacktest scenarioConfig 100000000 [scenarioDay1, scenarioDay2]).positions
        = []) := by
  constructor
  · intro cfg day st t ht
    have htr : (dayStep cfg day st).trades = (updatePositions cfg day.1 st).trades := by
      simp only [dayStep]
      split_ifs
      · exact entryFold_trades cfg _ _
      · rfl
    rw [htr] at ht
    exact updatePositions_trades cfg day.1 st t ht
  · constructor <;>
      norm_num [runBacktest, dayStep, updatePositions, maintainPosition,
        executeEntry, closePosition, insertKey, removeKey, lookupKey,
        portfolioValue, initialState, engineRiskManager, defaultRiskManager,
        calculatePositionSize, sizeAfterCount, sizeAfterSingle,
        sizeAfterExposure, sizeAfterSector, sizeAfterMin, pyInt, update_stop,
        calculateStop, calculateStopPrice, getCurrentLevel, buildLevels,
        levelAt, defaultStopManager, scenarioConfig, scenarioDay1,
        scenarioDay2, List.enum, List.enumFrom, Int.fdiv_one, abs_of_nonneg,
        Function.comp, List.filterMap_cons, List.filterMap_nil,
        List.foldl_cons, List.foldl_nil]

/-- **C3** witness: the universal half applied to the concrete day-2 exit
trade produced on the day-1 state: that trade's symbol was already open
when day 2 began. -/
theorem stop_breach_flagged_not_before_next_day_witness :
    (⟨7, 16666, 93093/1000 * (999/1000), BTExitReason.stopLossExit⟩ : BTrade)
      ∈ (dayStep scenarioConfig scenarioDay2
          (dayStep scenarioConfig scenarioDay1 (initialState 100000000))).trades
    ∧ ((⟨7, 16666, 93093/1000 * (999/1000), BTExitReason.stopLossExit⟩ : BTrade)
        ∈ (dayStep scenarioConfig scenarioDay1 (initialState 100000000)).trades
      ∨ (⟨7, 16666, 93093/1000 * (999/1000), BTExitReason.stopLossExit⟩ : BTrade).symbol
        ∈ (dayStep scenarioConfig scenarioDay1
            (initialState 100000000)).positions.map Prod.fst) :=
  ⟨by
    norm_num [dayStep, updatePositions, maintainPosition, executeEntry,
      closePosition, insertKey, removeKey, lookupKey, portfolioValue,
      initialState, engineRiskManager, defaultRiskManager,
      calculatePositionSize, sizeAfterCount, sizeAfterSingle,
      sizeAfterExposure, sizeAfterSector, sizeAfterMin, pyInt, update_stop,
      calculateStop, calculateStopPrice, getCurrentLevel, buildLevels,
      levelAt, defaultStopManager, scenarioConfig, scenarioDay1,
      scenarioDay2, List.enum, List.enumFrom, Int.fdiv_one, abs_of_nonneg,
      Function.comp, List.filterMap_cons, List.filterMap_nil,
      List.foldl_cons, List.foldl_nil],
   stop_breach_flagged_not_before_next_day.1 scenarioConfig scenarioDay2
     (dayStep scenarioConfig scenarioDay1 (initialState 100000000))
     ⟨7, 16666, 93093/1000 * (999/1000), BTExitReason.stopLossExit⟩
     (by
       norm_num [dayStep, updatePositions, maintainPosition, executeEntry,
         closePosition, insertKey, removeKey, lookupKey, portfolioValue,
         initialState, engineRiskManager, defaultRiskManager,
         calculatePositionSize, sizeAfterCount, sizeAfterSingle,
         sizeAfterExposure, sizeAfterSector, sizeAfterMin, pyInt, update_stop,
         calculateStop, calculateStopPrice, getCurrentLevel, buildLevels,
         levelAt, defaultStopManager, scenarioConfig, scenarioDay1,
         scenarioDay2, List.enum, List.enumFrom, Int.fdiv_one, abs_of_nonneg,
         Function.comp, List.filterMap_cons, List.filterMap_nil,
         List.foldl_cons, List.foldl_nil])⟩

end VCPTrader
